import Mathlib

/-
Verification development for the tslox tree-walk Lox interpreter
(scanner, parser desugaring, resolver, interpreter + environment chain).

Shallow embedding notes:
* The repository contains several builds of the same interpreter.  Where two
  builds differ on a function relevant to a claim, both variants are embedded
  and named after their origin (e.g. `resolveLocalTs` from src/src/resolver.ts
  versus `resolveLocal` from the compiled bundle in dist/).
* JavaScript numbers are IEEE-754 doubles.  The claims settled here exercise
  only small-integer arithmetic, where double and integer arithmetic agree,
  so numeric values are modelled as `Int`.  (The fractional part of a numeric
  literal is kept in the token's lexeme; no claim inspects it.)
* Mutable `Environment` objects shared by closures are modelled as a heap of
  frames (`LoxState.frames`) addressed by `Nat` references; `LoxInstance`
  objects live in a second store (`LoxState.insts`).
* Thrown JavaScript exceptions are modelled by `Except Sig`; state is kept on
  the error path, matching the fact that a thrown exception does not roll
  back mutations.  The non-local return signal (`LoxFunction.Return`) is the
  `Sig.ret` alternative; running out of recursion fuel is `Sig.noFuel`.
-/

/-- Scanner literal payloads: the scanner's `LoxObject` is
`string | number | boolean | null` (src/unnamed/part_004). -/
inductive Lit where
  | nil
  | bool (b : Bool)
  | num (n : Int)
  | str (s : String)
deriving Repr, DecidableEq

/-- Token kinds, from the `TokenType` enum in src/unnamed/part_004.
Keyword kinds carry a `t` prefix because their source names are Lean
keywords. -/
inductive TokenType where
  | leftParen | rightParen | leftBrace | rightBrace
  | comma | dot | minus | plus | semicolon | slash | star
  | bang | bangEqual | equal | equalEqual
  | greater | greaterEqual | less | lessEqual
  | identifier | string | number
  | tAnd | tClass | tElse | tFalse | tFun | tFor | tIf | tNil
  | tOr | tPrint | tReturn | tSuper | tThis | tTrue | tVar | tWhile
  | eof
deriving Repr, DecidableEq

/-- `Token` record from src/unnamed/part_004 (`literal` is `null` when
absent, modelled by `Lit.nil`). -/
structure Token where
  type : TokenType
  lexeme : String
  literal : Lit
  line : Nat
deriving Repr, DecidableEq

/-- Lookup in a JavaScript `Record<string, α>` (key membership / read). -/
def alGet {α : Type} : List (String × α) → String → Option α
  | [], _ => none
  | (k, v) :: rest, name => if k == name then some v else alGet rest name

/-- `record[key] = v`: replace the binding in place, or append a new one. -/
def alSet {α : Type} : List (String × α) → String → α → List (String × α)
  | [], name, v => [(name, v)]
  | (k, w) :: rest, name, v =>
      if k == name then (k, v) :: rest else (k, w) :: alSet rest name v

/-- The keyword table of the scanner (src/unnamed/part_004). -/
def keywords : List (String × TokenType) :=
  [("and", .tAnd), ("class", .tClass), ("else", .tElse), ("false", .tFalse),
   ("for", .tFor), ("fun", .tFun), ("if", .tIf), ("nil", .tNil),
   ("or", .tOr), ("print", .tPrint), ("return", .tReturn),
   ("super", .tSuper), ("this", .tThis), ("true", .tTrue),
   ("var", .tVar), ("while", .tWhile)]

/-- `SyntaxError(message, line)` from the error module. -/
structure SynErr where
  msg : String
  line : Nat
deriving Repr, DecidableEq

/-- `codeOf` from src/unnamed/part_004: `c.charCodeAt(0)`. -/
def codeOf (c : Char) : Nat := c.toNat

/-- `Scanner.isDigit`. -/
def isDigit (c : Char) : Bool :=
  decide (codeOf c ≥ codeOf '0') && decide (codeOf c ≤ codeOf '9')

/-- `Scanner.isAlpha`. -/
def isAlpha (c : Char) : Bool :=
  (decide (codeOf c ≥ codeOf 'a') && decide (codeOf c ≤ codeOf 'z')) ||
  (decide (codeOf c ≥ codeOf 'A') && decide (codeOf c ≤ codeOf 'Z')) ||
  codeOf c == codeOf '_'

/-- `Scanner.isAlphaNumeric`. -/
def isAlphaNumeric (c : Char) : Bool := isAlpha c || isDigit c

/-- The scanner's mutable fields (src/unnamed/part_004). -/
structure ScanState where
  source : List Char
  tokens : List Token
  start : Nat
  current : Nat
  line : Nat
deriving Repr, DecidableEq

/-- `source.charAt(i)`; out of range gives NUL (JS gives `''`, which the
scanner never consults because every access is guarded by `isAtEnd`). -/
def chAt (src : List Char) (i : Nat) : Char := (src[i]?).getD '\x00'

/-- `Scanner.isAtEnd`. -/
def atEnd (st : ScanState) : Bool := decide (st.current ≥ st.source.length)

/-- `Scanner.advance`: return the current character and step past it. -/
def advance (st : ScanState) : Char × ScanState :=
  (chAt st.source st.current, { st with current := st.current + 1 })

/-- `source.substring(a, b)`. -/
def sub (src : List Char) (a b : Nat) : String :=
  String.mk ((src.drop a).take (b - a))

/-- `Scanner.addToken`. -/
def addToken (st : ScanState) (type : TokenType) (literal : Lit) : ScanState :=
  { st with tokens :=
      st.tokens ++ [⟨type, sub st.source st.start st.current, literal, st.line⟩] }

/-- `Scanner.match`. -/
def matchChar (st : ScanState) (expected : Char) : Bool × ScanState :=
  if atEnd st || chAt st.source st.current != expected then (false, st)
  else (true, { st with current := st.current + 1 })

/-- `Scanner.peek`. -/
def peek (st : ScanState) : Char :=
  if atEnd st then '\x00' else chAt st.source st.current

/-- `Scanner.peekNext`. -/
def peekNext (st : ScanState) : Char :=
  if st.current + 1 ≥ st.source.length then '\x00'
  else chAt st.source (st.current + 1)

/-- The `while` loop skipping a `//` comment; bounded by remaining input. -/
def commentGo : Nat → ScanState → ScanState
  | 0, st => st
  | n + 1, st =>
      if peek st != '\n' && !(atEnd st) then
        commentGo n { st with current := st.current + 1 }
      else st

/-- The `while` loop inside `Scanner.string` (consumes up to the closing
quote or the end of input, counting newlines). -/
def stringGo : Nat → ScanState → ScanState
  | 0, st => st
  | n + 1, st =>
      if peek st != '"' && !(atEnd st) then
        let st := if peek st == '\n' then { st with line := st.line + 1 } else st
        stringGo n { st with current := st.current + 1 }
      else st

/-- The digit-consuming loops inside `Scanner.number`. -/
def digitsGo : Nat → ScanState → ScanState
  | 0, st => st
  | n + 1, st =>
      if isDigit (peek st) then digitsGo n { st with current := st.current + 1 }
      else st

/-- The loop inside `Scanner.identifier`. -/
def identGo : Nat → ScanState → ScanState
  | 0, st => st
  | n + 1, st =>
      if isAlphaNumeric (peek st) then
        identGo n { st with current := st.current + 1 }
      else st

/-- Integer value of the leading digits of a lexeme.  The source stores
`parseFloat(lexeme)` (an IEEE double); no claim depends on fractional
values, so the numeric model is the integer part. -/
def parseIntPart (s : String) : Int :=
  Int.ofNat ((s.data.takeWhile (fun c => isDigit c)).foldl
    (fun acc c => acc * 10 + (codeOf c - codeOf '0')) 0)

/-- `Scanner.string`: throws `SyntaxError('Unterminated string', line)` when
the input ends before a closing quote. -/
def scanString (st : ScanState) : Except SynErr ScanState :=
  let st := stringGo (st.source.length + 1) st
  if atEnd st then .error ⟨"Unterminated string", st.line⟩
  else
    let st := (advance st).2
    .ok (addToken st .string (.str (sub st.source (st.start + 1) (st.current - 1))))

/-- `Scanner.number`. -/
def scanNumber (st : ScanState) : ScanState :=
  let st := digitsGo (st.source.length + 1) st
  let st :=
    if peek st == '.' && isDigit (peekNext st) then
      digitsGo (st.source.length + 1) { st with current := st.current + 1 }
    else st
  addToken st .number (.num (parseIntPart (sub st.source st.start st.current)))

/-- `Scanner.identifier`. -/
def scanIdentifier (st : ScanState) : ScanState :=
  let st := identGo (st.source.length + 1) st
  match alGet keywords (sub st.source st.start st.current) with
  | some t => addToken st t .nil
  | none => addToken st .identifier .nil

/-- `Scanner.scanToken`: the big `switch`; the default case throws
`SyntaxError` on an unrecognized character. -/
def scanToken (st0 : ScanState) : Except SynErr ScanState :=
  let (c, st) := advance st0
  if c == '(' then .ok (addToken st .leftParen .nil)
  else if c == ')' then .ok (addToken st .rightParen .nil)
  else if c == '\x7b' then .ok (addToken st .leftBrace .nil)
  else if c == '\x7d' then .ok (addToken st .rightBrace .nil)
  else if c == ',' then .ok (addToken st .comma .nil)
  else if c == '.' then .ok (addToken st .dot .nil)
  else if c == '-' then .ok (addToken st .minus .nil)
  else if c == '+' then .ok (addToken st .plus .nil)
  else if c == ';' then .ok (addToken st .semicolon .nil)
  else if c == '*' then .ok (addToken st .star .nil)
  else if c == '!' then
    let (m, st) := matchChar st '='
    .ok (addToken st (if m then .bangEqual else .bang) .nil)
  else if c == '=' then
    let (m, st) := matchChar st '='
    .ok (addToken st (if m then .equalEqual else .equal) .nil)
  else if c == '<' then
    let (m, st) := matchChar st '='
    .ok (addToken st (if m then .lessEqual else .less) .nil)
  else if c == '>' then
    let (m, st) := matchChar st '='
    .ok (addToken st (if m then .greaterEqual else .greater) .nil)
  else if c == '/' then
    let (m, st) := matchChar st '/'
    if m then .ok (commentGo (st.source.length + 1) st)
    else .ok (addToken st .slash .nil)
  else if c == ' ' then .ok st
  else if c == '\r' then .ok st
  else if c == '\t' then .ok st
  else if c == '\n' then .ok { st with line := st.line + 1 }
  else if c == '"' then scanString st
  else if isDigit c then .ok (scanNumber st)
  else if isAlpha c then .ok (scanIdentifier st)
  else .error ⟨"Unexpected character: '" ++ c.toString ++ "'", st.line⟩

/-- The `while` loop of `Scanner.scanTokens`; a thrown `SyntaxError`
propagates out (there is no catch inside the scanner). -/
def scanTokensGo : Nat → ScanState → Except SynErr (List Token)
  | 0, st => .error ⟨"scanner fuel exhausted", st.line⟩
  | fuel + 1, st =>
      if atEnd st then .ok (st.tokens ++ [⟨.eof, "", .nil, st.line⟩])
      else
        match scanToken { st with start := st.current } with
        | .error e => .error e
        | .ok st' => scanTokensGo fuel st'

/-- `Scanner.scanTokens` on a source string.  Each iteration consumes at
least one character, so `length + 1` iterations always suffice. -/
def scanTokens (source : List Char) : Except SynErr (List Token) :=
  scanTokensGo (source.length + 1) ⟨source, [], 0, 0, 1⟩

/-- The characters `scanToken` recognizes at the start of a lexeme, in the
order the `switch` tests them; anything else reaches the throwing default
branch. -/
def recognizedStart (c : Char) : Bool :=
  c == '(' || c == ')' || c == '\x7b' || c == '\x7d' || c == ',' ||
  c == '.' || c == '-' || c == '+' || c == ';' || c == '*' ||
  c == '!' || c == '=' || c == '<' || c == '>' || c == '/' ||
  c == ' ' || c == '\r' || c == '\t' || c == '\n' || c == '"' ||
  isDigit c || isAlpha c

/-! ## Resolver scope resolution (src/src/resolver.ts versus dist/resolver.js) -/

/-- One scope map of the resolver's `ScopeStack`: `Record<string, boolean>`
(`false` = declared, `true` = defined).  Index 0 of the stack list is the
outermost scope; `push` appends. -/
abbrev Scope := List (String × Bool)

/-- `name.lexeme in this.scopes[i]` (key membership). -/
def scopeHasKey (sc : Scope) (name : String) : Bool := (alGet sc name).isSome

/-- `Resolver.resolveLocal` as written in src/src/resolver.ts (lines 39-45):
the loop runs from the innermost scope outward but has NO early return, so a
match in an outer scope overwrites the distance already recorded for an
inner one; the value returned here is the final side-table entry for the
expression.  `none` = the name was found in no scope (global fallback). -/
def resolveLocalTs (scopes : List Scope) (name : String) : Option Nat :=
  (List.range scopes.length).reverse.foldl
    (fun table i =>
      if scopeHasKey ((scopes[i]?).getD []) name then
        some (scopes.length - 1 - i)
      else table)
    none

/-- The loop of `Resolver.resolveLocal` in dist/resolver.js (lines 179-186):
identical walk, but it returns at the first scope containing the name.
The countdown argument is the loop index plus one. -/
def resolveLocalGo (scopes : List Scope) (name : String) : Nat → Option Nat
  | 0 => none
  | i + 1 =>
      if scopeHasKey ((scopes[i]?).getD []) name then
        some (scopes.length - 1 - i)
      else resolveLocalGo scopes name i

/-- `Resolver.resolveLocal` from dist/resolver.js: first match (innermost
scope) wins and scanning stops. -/
def resolveLocal (scopes : List Scope) (name : String) : Option Nat :=
  resolveLocalGo scopes name scopes.length

/-! ## AST (src/src/ast.ts)

The node classes are a closed family; there is no `For` statement variant —
for-loops are desugared by the parser.  `Variable`, `Assign` and `This`
nodes carry an `Option Nat` field modelling the interpreter's resolution
side-table (`Interpreter.locals : Map<Expr, number>`, keyed by node
identity; attaching the distance to the node is the standard shallow
embedding of a node-identity-keyed map). -/

inductive Expr where
  | binaryExpr (left : Expr) (operator : Token) (right : Expr)
  | groupingExpr (expression : Expr)
  | literalExpr (value : Lit)
  | unaryExpr (operator : Token) (right : Expr)
  | variableExpr (name : Token) (distance : Option Nat)
  | assignExpr (name : Token) (value : Expr) (distance : Option Nat)
  | logicalExpr (left : Expr) (operator : Token) (right : Expr)
  | callExpr (callee : Expr) (paren : Token) (args : List Expr)
  | getExpr (object : Expr) (name : Token)
  | setExpr (object : Expr) (name : Token) (value : Expr)
  | thisExpr (keyword : Token) (distance : Option Nat)
deriving Repr

/-- Statement nodes.  A class body entry is `(name, params, body)` of a
method `FunctionStmt`. -/
inductive Stmt where
  | expressionStmt (expression : Expr)
  | printStmt (expression : Expr)
  | varStmt (name : Token) (initializer : Option Expr)
  | blockStmt (statements : List Stmt)
  | ifStmt (condition : Expr) (thenBranch : Stmt) (elseBranch : Option Stmt)
  | whileStmt (condition : Expr) (body : Stmt)
  | functionStmt (name : Token) (params : List Token) (body : List Stmt)
  | returnStmt (keyword : Token) (value : Option Expr)
  | classStmt (name : Token) (methods : List (Token × List Token × List Stmt))
deriving Repr

/-! ## Runtime values (src/unnamed/part_000, the superclass-enabled types) -/

/-- `LoxFunction`: `{declaration, closure, isInitializer}`; the declaration's
fields are inlined, `closure` is a frame reference. -/
structure FuncVal where
  name : Token
  params : List Token
  body : List Stmt
  closure : Nat
  isInitializer : Bool
deriving Repr

/-- `LoxClass`: `{name, superclass, methods}` (src/unnamed/part_000). -/
inductive ClassVal where
  | mk (name : String) (superclass : Option ClassVal)
      (methods : List (String × FuncVal))
deriving Repr

def ClassVal.name : ClassVal → String
  | .mk n _ _ => n

def ClassVal.superclass : ClassVal → Option ClassVal
  | .mk _ s _ => s

def ClassVal.methods : ClassVal → List (String × FuncVal)
  | .mk _ _ m => m

/-- `LoxClass.findMethod`: own methods first, then the superclass chain. -/
def ClassVal.findMethod : ClassVal → String → Option FuncVal
  | .mk _ sup ms, name =>
      match alGet ms name with
      | some m => some m
      | none =>
          match sup with
          | some k => ClassVal.findMethod k name
          | none => none

/-- `LoxObject` at run time: `LoxInstance | LoxCallable | string | number |
boolean | null`.  `inst` is a reference into the instance store; `undef`
models JavaScript `undefined`, which only arises in corners (`getAt` on a
frame that lacks the name) never reached by a resolved program. -/
inductive Value where
  | nil
  | bool (b : Bool)
  | num (n : Int)
  | str (s : String)
  | clockFn
  | fn (f : FuncVal)
  | cls (k : ClassVal)
  | inst (ref : Nat)
deriving Repr

/-- An `Environment` object: `values` record plus the `enclosing` link. -/
structure Frame where
  values : List (String × Value)
  enclosing : Option Nat
deriving Repr

/-- A `LoxInstance`: its class and its open field record. -/
structure Inst where
  klass : ClassVal
  fields : List (String × Value)
deriving Repr

/-- The interpreter's mutable world: the environment heap (frame 0 is the
`globals` environment created in the constructor), the instance store, the
interpreter's `environment` field (a frame reference), and the text printed
so far by `console.log`. -/
structure LoxState where
  frames : List Frame
  insts : List Inst
  env : Nat
  output : List String
deriving Repr

/-- The state `new Interpreter()` starts in: a lone global environment
defining the native `clock`. -/
def initLoxState : LoxState :=
  ⟨[⟨[("clock", .clockFn)], none⟩], [], 0, []⟩

/-- The `undefined` carrier used by `getAt`/`getThis` when a frame lacks the
name (JavaScript record read misses yield `undefined`). -/
def Frame.read (f : Frame) (name : String) : Value :=
  match alGet f.values name with
  | some v => v
  | none => .nil

/-! `Frame.read`'s miss case: the JavaScript expression
`environment.values[name]` yields `undefined` on a miss.  `undefined` is
collapsed onto `nil` here; the miss case is unreachable for distances
computed by the resolver, and no claim distinguishes the two. -/

/-- `Interpreter.isTruthy`: only `nil` and `false` are falsy. -/
def isTruthy : Value → Bool
  | .nil => false
  | .bool b => b
  | _ => true

/-- `Interpreter.isEqual`: `null` equal only to `null`, otherwise `===`.
Value types compare by value, instances by reference; distinct callables
are never `===` (function identity is not modelled — no claim compares
callables). -/
def valueEq : Value → Value → Bool
  | .nil, .nil => true
  | .nil, _ => false
  | .bool a, .bool b => a == b
  | .num a, .num b => a == b
  | .str a, .str b => a == b
  | .inst a, .inst b => a == b
  | _, _ => false

/-- `callee instanceof LoxCallable`. -/
def isCallable : Value → Bool
  | .clockFn => true
  | .fn _ => true
  | .cls _ => true
  | _ => false

/-- `LoxCallable.arity`: clock 0; functions their parameter count; classes
the arity of their `init` method, or 0 without one (src/unnamed/part_000).
Non-callables are rejected before arity is consulted; 0 keeps this total. -/
def arityOf : Value → Nat
  | .clockFn => 0
  | .fn f => f.params.length
  | .cls k =>
      match k.findMethod "init" with
      | some ini => ini.params.length
      | none => 0
  | _ => 0

/-- `Interpreter.stringify` (needs the state to name an instance's class). -/
def stringify (s : LoxState) (v : Value) : String :=
  match v with
  | .nil => "nil"
  | .num n => toString n
  | .bool b => if b then "true" else "false"
  | .str str => str
  | .clockFn => "<native fun 'clock'>"
  | .fn f => "<fun " ++ f.name.lexeme ++ ">"
  | .cls k => "<class " ++ k.name ++ ">"
  | .inst r =>
      match s.insts[r]? with
      | some i => "<instance of class " ++ i.klass.name ++ ">"
      | none => "<instance>"

/-! ## Environment operations (class `Environment`, dist/resolver.js 867-925;
identical in src/unnamed/part_003 except for `assignAt`, embedded in both
variants below) -/

/-- Thrown signals: `RuntimeError(message, token)` (the token is only used
for error-location display and is not modelled), the non-local
`LoxFunction.Return` carrying a value, and fuel exhaustion (our stand-in
for nontermination, not a behaviour of the program). -/
inductive Sig where
  | rtErr (msg : String)
  | ret (v : Value)
  | noFuel
deriving Repr

/-- Replace frame `ref` in the heap. -/
def setFrame (s : LoxState) (ref : Nat) (f : Frame) : LoxState :=
  { s with frames := s.frames.set ref f }

/-- Follow `n` `enclosing` links (each `environment?.enclosing || null`). -/
def walkEnclosing (s : LoxState) : Nat → Option Nat → Option Nat
  | 0, r => r
  | n + 1, r =>
      walkEnclosing s n (r.bind fun ref => (s.frames[ref]?).bind (·.enclosing))

/-- `Environment.ancestor`: distance 0 is the environment itself; otherwise
follow exactly `distance` enclosing links, `null` if the chain is shorter. -/
def ancestor (s : LoxState) (ref : Nat) (d : Nat) : Option Nat :=
  match d with
  | 0 => some ref
  | _ + 1 => walkEnclosing s d (some ref)

/-- `Environment.define`: `values[name] = value` on frame `ref`. -/
def envDefine (s : LoxState) (ref : Nat) (name : String) (v : Value) : LoxState :=
  match s.frames[ref]? with
  | some f => setFrame s ref { f with values := alSet f.values name v }
  | none => s

/-- `Environment.getAt`: read `values[name]` on the `distance`-th ancestor;
`RuntimeError` when the ancestor chain ran out (the "just in case" throw). -/
def getAt (s : LoxState) (ref d : Nat) (name : String) : Except Sig Value :=
  match ancestor s ref d with
  | some r =>
      match s.frames[r]? with
      | some f => .ok (f.read name)
      | none => .error (.rtErr ("Undefined variable '" ++ name ++ "'"))
  | none => .error (.rtErr ("Undefined variable '" ++ name ++ "'"))

/-- `Environment.getThis`: `values['this']` of a closure frame. -/
def closureGetThis (s : LoxState) (ref : Nat) : Value :=
  match s.frames[ref]? with
  | some f => f.read "this"
  | none => .nil

/-- `Environment.assignAt` as fixed in dist/resolver.js (lines 900-907):
assign on the ancestor; the throw happens only in the `else` branch, when
the ancestor chain ran out. -/
def assignAt (s : LoxState) (ref d : Nat) (name : String) (v : Value) :
    Except Sig Unit × LoxState :=
  match ancestor s ref d with
  | some r => (.ok (), envDefine s r name v)
  | none => (.error (.rtErr ("Undefined variable '" ++ name ++ "'")), s)

/-- `Environment.assignAt` as written in src/unnamed/part_003 (lines 342-348)
and dist/interpreter.js (lines 264-270): the assignment is performed, and
then the `throw` — annotated `// Unreachable (just in case)` but NOT guarded
by any condition — is executed unconditionally. -/
def assignAtP3 (s : LoxState) (ref d : Nat) (name : String) (v : Value) :
    Except Sig Unit × LoxState :=
  match ancestor s ref d with
  | some r =>
      (.error (.rtErr ("Undefined variable '" ++ name ++ "'")), envDefine s r name v)
  | none => (.error (.rtErr ("Undefined variable '" ++ name ++ "'")), s)

/-- `Environment.get`: read the name here or recursively in the enclosing
environment; `RuntimeError` at the end of the chain. -/
def envGet : Nat → LoxState → Nat → String → Except Sig Value
  | 0, _, _, _ => .error .noFuel
  | fuel + 1, s, ref, name =>
      match s.frames[ref]? with
      | none => .error (.rtErr ("Undefined variable '" ++ name ++ "'"))
      | some f =>
          match alGet f.values name with
          | some v => .ok v
          | none =>
              match f.enclosing with
              | some p => envGet fuel s p name
              | none => .error (.rtErr ("Undefined variable '" ++ name ++ "'"))

/-- `Environment.assign`: overwrite the binding here if present, else
recurse into the enclosing environment, else `RuntimeError`; never creates
a binding. -/
def envAssign : Nat → LoxState → Nat → String → Value → Except Sig Unit × LoxState
  | 0, s, _, _, _ => (.error .noFuel, s)
  | fuel + 1, s, ref, name, v =>
      match s.frames[ref]? with
      | none => (.error (.rtErr ("Undefined variable '" ++ name ++ "'")), s)
      | some f =>
          if (alGet f.values name).isSome then
            (.ok (), setFrame s ref { f with values := alSet f.values name v })
          else
            match f.enclosing with
            | some p => envAssign fuel s p name v
            | none => (.error (.rtErr ("Undefined variable '" ++ name ++ "'")), s)

/-- Whether `name` is bound somewhere along the environment chain starting
at `ref`.  Out of fuel answers `true`, so `chainHas ... = false` certifies
that the fuel covered the entire chain and the name is genuinely absent. -/
def chainHas (s : LoxState) : Nat → Nat → String → Bool
  | 0, _, _ => true
  | fuel + 1, ref, name =>
      match s.frames[ref]? with
      | none => false
      | some f =>
          (alGet f.values name).isSome ||
          (match f.enclosing with
           | some p => chainHas s fuel p name
           | none => false)

/-- `Interpreter.lookupVariable`: a resolver-supplied distance jumps the
chain from the active environment; otherwise read the globals directly. -/
def lookupVariable (fuel : Nat) (s : LoxState) (name : Token)
    (dist : Option Nat) : Except Sig Value :=
  match dist with
  | some d => getAt s s.env d name.lexeme
  | none => envGet fuel s 0 name.lexeme

/-- `LoxFunction.bind`: a fresh environment child of the function's closure
defining `this`, wrapped in a new function value. -/
def bindMethod (f : FuncVal) (iref : Nat) (s : LoxState) : FuncVal × LoxState :=
  ({ f with closure := s.frames.length },
   { s with frames := s.frames ++ [⟨[("this", Value.inst iref)], some f.closure⟩] })

/-- `LoxInstance.get` (src/unnamed/part_000, lines 106-113): fields first;
only when no field of that name exists is the class chain's method lookup
consulted (binding `this` freshly); otherwise `RuntimeError`. -/
def instanceGet (s : LoxState) (iref : Nat) (name : String) :
    Except Sig Value × LoxState :=
  match s.insts[iref]? with
  | none => (.error (.rtErr ("Undefined property " ++ name)), s)
  | some i =>
      match alGet i.fields name with
      | some v => (.ok v, s)
      | none =>
          match ClassVal.findMethod i.klass name with
          | some m => (.ok (.fn ((bindMethod m iref s).1)), (bindMethod m iref s).2)
          | none => (.error (.rtErr ("Undefined property " ++ name)), s)

/-- `LoxInstance.set`: `fields[name] = value`. -/
def instanceSet (s : LoxState) (iref : Nat) (name : String) (v : Value) : LoxState :=
  match s.insts[iref]? with
  | some i => { s with insts := s.insts.set iref { i with fields := alSet i.fields name v } }
  | none => s

/-- `new Environment(closure)` plus the parameter-`define` loop at the top
of `LoxFunction.call`.  With fewer arguments than parameters JS reads
`args[i]` as `undefined` (collapsed onto `nil` here); the arity check
upstream prevents that. -/
def defineParamsGo : List (String × Value) → List Token → List Value →
    List (String × Value)
  | acc, [], _ => acc
  | acc, p :: ps, [] => defineParamsGo (alSet acc p.lexeme .nil) ps []
  | acc, p :: ps, a :: as => defineParamsGo (alSet acc p.lexeme a) ps as

def defineParams (params : List Token) (args : List Value) :
    List (String × Value) :=
  defineParamsGo [] params args

/-- The reference the call environment of `LoxFunction.call` gets. -/
def funcEnvRef (_f : FuncVal) (_args : List Value) (s : LoxState) : Nat :=
  s.frames.length

/-- The state after `LoxFunction.call` allocates its call environment. -/
def funcEnvState (f : FuncVal) (args : List Value) (s : LoxState) : LoxState :=
  { s with frames := s.frames ++ [⟨defineParams f.params args, some f.closure⟩] }

/-- The state after `LoxClass.call` allocates `new LoxInstance(this)` — the
fresh instance starts with an EMPTY field record. -/
def pushInst (s : LoxState) (k : ClassVal) : LoxState :=
  { s with insts := s.insts ++ [⟨k, []⟩] }

/-! ## The tree-walk interpreter (class `Interpreter`, dist/resolver.js
616-865 = src/unnamed/part_003 modulo the `assignAt` fix; `LoxFunction.call`
and `LoxClass.call` from src/unnamed/part_000).  Recursion is bounded by an
explicit fuel, decremented on every recursive step; running out is the
`Sig.noFuel` outcome. -/

/-- `binaryOp`: the operator dispatch of `visitBinaryExpr`.  Arithmetic and
comparisons demand two numbers; `+` also accepts two strings; `==`/`!=`
use `isEqual`.  (Pulled out of the mutual block: it does not recurse.) -/
def binaryOp (op : Token) (lv rv : Value) : Except Sig Value :=
  if op.type == TokenType.greater then
    match lv, rv with
    | .num a, .num b => .ok (.bool (decide (a > b)))
    | _, _ => .error (.rtErr "Operands must be numbers")
  else if op.type == TokenType.greaterEqual then
    match lv, rv with
    | .num a, .num b => .ok (.bool (decide (a ≥ b)))
    | _, _ => .error (.rtErr "Operands must be numbers")
  else if op.type == TokenType.less then
    match lv, rv with
    | .num a, .num b => .ok (.bool (decide (a < b)))
    | _, _ => .error (.rtErr "Operands must be numbers")
  else if op.type == TokenType.lessEqual then
    match lv, rv with
    | .num a, .num b => .ok (.bool (decide (a ≤ b)))
    | _, _ => .error (.rtErr "Operands must be numbers")
  else if op.type == TokenType.minus then
    match lv, rv with
    | .num a, .num b => .ok (.num (a - b))
    | _, _ => .error (.rtErr "Operands must be numbers")
  else if op.type == TokenType.bangEqual then .ok (.bool (!(valueEq lv rv)))
  else if op.type == TokenType.equalEqual then .ok (.bool (valueEq lv rv))
  else if op.type == TokenType.slash then
    match lv, rv with
    | .num a, .num b => .ok (.num (a / b))
    | _, _ => .error (.rtErr "Operands must be numbers")
  else if op.type == TokenType.star then
    match lv, rv with
    | .num a, .num b => .ok (.num (a * b))
    | _, _ => .error (.rtErr "Operands must be numbers")
  else if op.type == TokenType.plus then
    match lv, rv with
    | .num a, .num b => .ok (.num (a + b))
    | .str a, .str b => .ok (.str (a ++ b))
    | _, _ => .error (.rtErr "Operands must be two numbers or two strings")
  else .ok .nil

mutual

/-- `Interpreter.evaluate` / the expression visitors. -/
def evalExpr : Nat → Expr → LoxState → Except Sig Value × LoxState
  | 0, _, s => (.error .noFuel, s)
  | _ + 1, .literalExpr v, s =>
      (.ok (match v with
            | .nil => .nil
            | .bool b => .bool b
            | .num n => .num n
            | .str str => .str str), s)
  | fuel + 1, .groupingExpr inner, s => evalExpr fuel inner s
  | fuel + 1, .unaryExpr op right, s =>
      (match evalExpr fuel right s with
       | (.error e, s₁) => (.error e, s₁)
       | (.ok rv, s₁) =>
           if op.type == TokenType.bang then (.ok (.bool (!(isTruthy rv))), s₁)
           else if op.type == TokenType.minus then
             match rv with
             | .num n => (.ok (.num (-n)), s₁)
             | _ => (.error (.rtErr "Operand must be a number"), s₁)
           else (.ok .nil, s₁))
  | fuel + 1, .binaryExpr l op r, s =>
      (match evalExpr fuel l s with
       | (.error e, s₁) => (.error e, s₁)
       | (.ok lv, s₁) =>
           match evalExpr fuel r s₁ with
           | (.error e, s₂) => (.error e, s₂)
           | (.ok rv, s₂) => (binaryOp op lv rv, s₂))
  | fuel + 1, .variableExpr name dist, s => (lookupVariable fuel s name dist, s)
  | fuel + 1, .assignExpr name valueE dist, s =>
      (match evalExpr fuel valueE s with
       | (.error e, s₁) => (.error e, s₁)
       | (.ok v, s₁) =>
           match dist with
           | some d =>
               (match assignAt s₁ s₁.env d name.lexeme v with
                | (.ok _, s₂) => (.ok v, s₂)
                | (.error e, s₂) => (.error e, s₂))
           | none =>
               (match envAssign fuel s₁ 0 name.lexeme v with
                | (.ok _, s₂) => (.ok v, s₂)
                | (.error e, s₂) => (.error e, s₂)))
  | fuel + 1, .logicalExpr l op r, s =>
      (match evalExpr fuel l s with
       | (.error e, s₁) => (.error e, s₁)
       | (.ok left, s₁) =>
           if op.type == TokenType.tOr then
             if isTruthy left then (.ok left, s₁) else evalExpr fuel r s₁
           else
             if !(isTruthy left) then (.ok left, s₁) else evalExpr fuel r s₁)
  | fuel + 1, .callExpr callee _paren args, s =>
      (match evalExpr fuel callee s with
       | (.error e, s₁) => (.error e, s₁)
       | (.ok cv, s₁) =>
           match evalArgs fuel args s₁ with
           | (.error e, s₂) => (.error e, s₂)
           | (.ok avs, s₂) =>
               if !(isCallable cv) then
                 (.error (.rtErr "Can only call functions and classes"), s₂)
               else if avs.length != arityOf cv then
                 (.error (.rtErr ("Expected " ++ toString (arityOf cv) ++
                   " arguments but got " ++ toString avs.length)), s₂)
               else callValue fuel cv avs s₂)
  | fuel + 1, .getExpr object name, s =>
      (match evalExpr fuel object s with
       | (.error e, s₁) => (.error e, s₁)
       | (.ok ov, s₁) =>
           match ov with
           | .inst iref => instanceGet s₁ iref name.lexeme
           | _ => (.error (.rtErr "Only class instances have properties"), s₁))
  | fuel + 1, .setExpr object name valueE, s =>
      (match evalExpr fuel object s with
       | (.error e, s₁) => (.error e, s₁)
       | (.ok ov, s₁) =>
           match ov with
           | .inst iref =>
               (match evalExpr fuel valueE s₁ with
                | (.error e, s₂) => (.error e, s₂)
                | (.ok v, s₂) => (.ok v, instanceSet s₂ iref name.lexeme v))
           | _ => (.error (.rtErr "Only class instances have fields"), s₁))
  | fuel + 1, .thisExpr keyword dist, s => (lookupVariable fuel s keyword dist, s)

/-- Left-to-right evaluation of a call's argument list
(`expr.args.map((arg) => this.evaluate(arg))`). -/
def evalArgs : Nat → List Expr → LoxState → Except Sig (List Value) × LoxState
  | 0, _, s => (.error .noFuel, s)
  | _ + 1, [], s => (.ok [], s)
  | fuel + 1, a :: rest, s =>
      (match evalExpr fuel a s with
       | (.error e, s₁) => (.error e, s₁)
       | (.ok v, s₁) =>
           match evalArgs fuel rest s₁ with
           | (.error e, s₂) => (.error e, s₂)
           | (.ok vs, s₂) => (.ok (v :: vs), s₂))

/-- `LoxCallable.call` dispatch: native clock, user function, or class.
(The native clock reads the host clock; its value is modelled as 0 — no
claim depends on it.) -/
def callValue : Nat → Value → List Value → LoxState → Except Sig Value × LoxState
  | 0, _, _, s => (.error .noFuel, s)
  | fuel + 1, v, args, s =>
      match v with
      | .clockFn => (.ok (.num 0), s)
      | .fn f => loxFunctionCall fuel f args s
      | .cls k => classCall fuel k args s
      | _ => (.error (.rtErr "Can only call functions and classes"), s)

/-- `LoxFunction.call` (src/unnamed/part_000, lines 31-52): execute the body
in a fresh environment child of the closure; catch the `Return` signal; an
initializer yields `closure.getThis()` on both the normal and the `Return`
path; other exceptions propagate. -/
def loxFunctionCall : Nat → FuncVal → List Value → LoxState →
    Except Sig Value × LoxState
  | 0, _, _, s => (.error .noFuel, s)
  | fuel + 1, f, args, s =>
      match executeBlock fuel f.body (funcEnvRef f args s) (funcEnvState f args s) with
      | (.ok _, s₂) =>
          if f.isInitializer then (.ok (closureGetThis s₂ f.closure), s₂)
          else (.ok .nil, s₂)
      | (.error (.ret v), s₂) =>
          if f.isInitializer then (.ok (closureGetThis s₂ f.closure), s₂)
          else (.ok v, s₂)
      | (.error e, s₂) => (.error e, s₂)

/-- `LoxClass.call` (src/unnamed/part_000, lines 81-87): create an instance
with an empty field record, then bind and call `init` (found anywhere on
the superclass chain) with the constructor arguments, discarding its
result; the call's value is always the new instance. -/
def classCall : Nat → ClassVal → List Value → LoxState → Except Sig Value × LoxState
  | 0, _, _, s => (.error .noFuel, s)
  | fuel + 1, k, args, s =>
      match k.findMethod "init" with
      | none => (.ok (.inst s.insts.length), pushInst s k)
      | some ini =>
          match loxFunctionCall fuel
              ((bindMethod ini s.insts.length (pushInst s k)).1) args
              ((bindMethod ini s.insts.length (pushInst s k)).2) with
          | (.ok _, s₂) => (.ok (.inst s.insts.length), s₂)
          | (.error e, s₂) => (.error e, s₂)

/-- `Interpreter.execute` / the statement visitors. -/
def execStmt : Nat → Stmt → LoxState → Except Sig Unit × LoxState
  | 0, _, s => (.error .noFuel, s)
  | fuel + 1, .expressionStmt e, s =>
      (match evalExpr fuel e s with
       | (.ok _, s₁) => (.ok (), s₁)
       | (.error er, s₁) => (.error er, s₁))
  | fuel + 1, .printStmt e, s =>
      (match evalExpr fuel e s with
       | (.ok v, s₁) => (.ok (), { s₁ with output := s₁.output ++ [stringify s₁ v] })
       | (.error er, s₁) => (.error er, s₁))
  | fuel + 1, .varStmt name ini, s =>
      (match ini with
       | none => (.ok (), envDefine s s.env name.lexeme .nil)
       | some e =>
           match evalExpr fuel e s with
           | (.ok v, s₁) => (.ok (), envDefine s₁ s₁.env name.lexeme v)
           | (.error er, s₁) => (.error er, s₁))
  | fuel + 1, .blockStmt stmts, s =>
      executeBlock fuel stmts s.frames.length
        { s with frames := s.frames ++ [⟨[], some s.env⟩] }
  | fuel + 1, .ifStmt c t e, s =>
      (match evalExpr fuel c s with
       | (.error er, s₁) => (.error er, s₁)
       | (.ok v, s₁) =>
           if isTruthy v then execStmt fuel t s₁
           else
             match e with
             | some els => execStmt fuel els s₁
             | none => (.ok (), s₁))
  | fuel + 1, .whileStmt c b, s =>
      (match evalExpr fuel c s with
       | (.error er, s₁) => (.error er, s₁)
       | (.ok v, s₁) =>
           if isTruthy v then
             match execStmt fuel b s₁ with
             | (.ok _, s₂) => execStmt fuel (.whileStmt c b) s₂
             | (.error er, s₂) => (.error er, s₂)
           else (.ok (), s₁))
  | _ + 1, .functionStmt name params body, s =>
      (.ok (), envDefine s s.env name.lexeme (.fn ⟨name, params, body, s.env, false⟩))
  | fuel + 1, .returnStmt _kw value, s =>
      (match value with
       | none => (.error (.ret .nil), s)
       | some e =>
           match evalExpr fuel e s with
           | (.ok v, s₁) => (.error (.ret v), s₁)
           | (.error er, s₁) => (.error er, s₁))
  | fuel + 1, .classStmt name methodDecls, s =>
      let s₁ := envDefine s s.env name.lexeme .nil
      let methods := methodDecls.foldl
        (fun acc m =>
          alSet acc m.1.lexeme
            (⟨m.1, m.2.1, m.2.2, s₁.env, m.1.lexeme == "init"⟩ : FuncVal))
        []
      (match envAssign fuel s₁ s₁.env name.lexeme (.cls (.mk name.lexeme none methods)) with
       | (.ok _, s₂) => (.ok (), s₂)
       | (.error er, s₂) => (.error er, s₂))

/-- The statement loop shared by `interpret` and `executeBlock`. -/
def execStmts : Nat → List Stmt → LoxState → Except Sig Unit × LoxState
  | 0, _, s => (.error .noFuel, s)
  | _ + 1, [], s => (.ok (), s)
  | fuel + 1, st :: rest, s =>
      (match execStmt fuel st s with
       | (.ok _, s₁) => execStmts fuel rest s₁
       | (.error er, s₁) => (.error er, s₁))

/-- `Interpreter.executeBlock`: remember the previous environment, install
the given one, run the statements, and restore the previous environment in
a `finally` — i.e. on EVERY path, normal or signalling. -/
def executeBlock : Nat → List Stmt → Nat → LoxState → Except Sig Unit × LoxState
  | 0, _, _, s => (.error .noFuel, s)
  | fuel + 1, stmts, envRef, s =>
      let r := execStmts fuel stmts { s with env := envRef }
      (r.1, { r.2 with env := s.env })

end

/-! ## For-loop desugaring (Parser.forStatement, src/src/parser.ts 387-420)

Lines 388-407 parse the four clauses (initializer, condition, increment,
body); lines 409-419 are the desugaring transformation embedded here.  The
`Stmt` family above has no `For` variant — the parser can only ever emit
the desugared shape. -/

/-- The desugaring steps of `Parser.forStatement`, in source order: wrap the
increment behind the body, default a missing condition to literal `true`,
wrap in a while-loop, wrap the initializer around the loop. -/
def desugarFor (initializer : Option Stmt) (condition : Option Expr)
    (increment : Option Expr) (body : Stmt) : Stmt :=
  let body1 :=
    match increment with
    | some inc => Stmt.blockStmt [body, .expressionStmt inc]
    | none => body
  let cond :=
    match condition with
    | none => Expr.literalExpr (.bool true)
    | some c => c
  let body2 := Stmt.whileStmt cond body1
  match initializer with
  | some ini => Stmt.blockStmt [ini, body2]
  | none => body2

/-- The desugared form as the specification words it: "initializer block
wraps a while loop whose condition defaults to `true` when omitted, and
whose body appends the increment expression as a trailing statement when
present".  Stated from the spec's sentence, for comparison with
`desugarFor` (which is translated from the source). -/
def desugarForSpec (initializer : Option Stmt) (condition : Option Expr)
    (increment : Option Expr) (body : Stmt) : Stmt :=
  let loop := Stmt.whileStmt
    (condition.getD (Expr.literalExpr (.bool true)))
    (match increment with
     | some inc => Stmt.blockStmt [body, .expressionStmt inc]
     | none => body)
  match initializer with
  | some ini => Stmt.blockStmt [ini, loop]
  | none => loop

/-! ## Concrete fixtures used by witnesses and counterexamples -/

/-- An identifier token. -/
def idTok (name : String) : Token := ⟨.identifier, name, .nil, 1⟩

/-- An operator/keyword token of the given kind. -/
def opTok (t : TokenType) (lex : String) : Token := ⟨t, lex, .nil, 1⟩

/-- `var i = 0;` — the initializer clause of the §8 example
`for (var i=0;i<3;i=i+1) print i;`. -/
def forInit : Stmt := .varStmt (idTok "i") (some (.literalExpr (.num 0)))

/-- `i < 3`.  The resolver distances on the `i` references are the ones the
dist-build resolver computes for the desugared tree: the condition sits
directly inside the initializer block's scope (distance 0). -/
def forCond : Expr :=
  .binaryExpr (.variableExpr (idTok "i") (some 0)) (opTok .less "<")
    (.literalExpr (.num 3))

/-- `i = i + 1`; inside the increment-wrapping block, one scope below the
declaring block, so both `i` references resolve at distance 1. -/
def forInc : Expr :=
  .assignExpr (idTok "i")
    (.binaryExpr (.variableExpr (idTok "i") (some 1)) (opTok .plus "+")
      (.literalExpr (.num 1)))
    (some 1)

/-- `print i;` — also inside the increment-wrapping block (distance 1). -/
def forBody : Stmt := .printStmt (.variableExpr (idTok "i") (some 1))

/-- The §8 example for-loop after parsing: all four clauses present. -/
def forExample : Stmt := desugarFor (some forInit) (some forCond) (some forInc) forBody

/-- A state whose globals hold a zero-parameter function `f` (used to
witness the arity-mismatch error). -/
def arityWitnessState : LoxState :=
  ⟨[⟨[("f", .fn ⟨idTok "f", [], [], 0, false⟩)], none⟩], [], 0, []⟩

/-- A state with one global environment binding only `x ↦ 1`. -/
def assignWitnessState : LoxState := ⟨[⟨[("x", Value.num 1)], none⟩], [], 0, []⟩

/-- A state with an empty global environment. -/
def emptyGlobalsState : LoxState := ⟨[⟨[], none⟩], [], 0, []⟩

/-- A class `K` whose `init` ends in `return 42;` — the explicit return
value that Lox must discard when constructing. -/
def initReturnsClass : ClassVal :=
  .mk "K" none
    [("init", ⟨idTok "init", [],
      [.returnStmt (opTok .tReturn "return") (some (.literalExpr (.num 42)))],
      0, true⟩)]

/-- A method `m` that returns `1` (shadowed by a field in the C10 witness). -/
def shadowedMethod : FuncVal :=
  ⟨idTok "m", [], [.returnStmt (opTok .tReturn "return") (some (.literalExpr (.num 1)))], 0, false⟩

/-- A class defining method `m`. -/
def shadowClass : ClassVal := .mk "M" none [("m", shadowedMethod)]

/-- An instance of `shadowClass` whose FIELD `m` holds `7`, stored at
instance reference 0. -/
def shadowState : LoxState :=
  ⟨[⟨[("clock", .clockFn)], none⟩], [⟨shadowClass, [("m", Value.num 7)]⟩], 0, []⟩

/-! ## Helper lemmas -/

/-- Reading a list extended by one element at the old length yields the new
element (the address a freshly pushed frame/instance gets). -/
theorem getAppendLength {α : Type} (l : List α) (x : α) :
    (l ++ [x])[l.length]? = some x := by
  induction l with
  | nil => rfl
  | cons a t ih => simp [ih]

/-! ## Claim theorems -/

/-- C1: the claim says `resolveLocal` records the distance of the FIRST
(innermost) scope containing the name and stops scanning.  The
src/src/resolver.ts variant has no early return: with `a` declared in both
of two nested scopes it ends up recording distance 1 — the OUTERMOST
declaring scope — because the outer match overwrites the inner one.  The
dist/resolver.js variant short-circuits and records 0 as the claim states. -/
theorem resolveLocal_records_outermost_distance :
    resolveLocalTs [[("a", true)], [("a", true)]] "a" = some 1 ∧
    resolveLocal [[("a", true)], [("a", true)]] "a" = some 0 := by
  constructor <;> rfl

/-- C2: the claim says a resolved assignment updates the binding `D` links
up and completes without a runtime error, returning the value.  In
src/unnamed/part_003 (and dist/interpreter.js) `assignAt` performs the
update and then reaches the unconditional `throw` that its own comment
calls `Unreachable`: on a global environment binding `x ↦ 1`, assigning
`x ↦ 2` at distance 0 updates the frame AND raises the undefined-variable
error.  The dist/resolver.js build guards the throw with `else` and behaves
as claimed. -/
theorem assignAt_always_throws_after_update :
    assignAtP3 assignWitnessState 0 0 "x" (Value.num 2) =
      (.error (.rtErr "Undefined variable 'x'"),
       ⟨[⟨[("x", Value.num 2)], none⟩], [], 0, []⟩) ∧
    assignAt assignWitnessState 0 0 "x" (Value.num 2) =
      (.ok (), ⟨[⟨[("x", Value.num 2)], none⟩], [], 0, []⟩) := by
  constructor <;> rfl

/-- C3 counterexample: the claim says a syntax failure does not abort
scanning and `scanTokens` still returns the tokens for the rest of the
input.  On `"@+"` (unrecognized character followed by a valid token) and on
`"\"ab"` (unterminated string) `scanTokens` instead propagates the thrown
`SyntaxError` and produces no token list at all. -/
theorem scanner_error_recovery_counterexample :
    scanTokens ('@' :: '+' :: []) = .error ⟨"Unexpected character: '@'", 1⟩ ∧
    scanTokens ('"' :: 'a' :: 'b' :: []) = .error ⟨"Unterminated string", 1⟩ := by
  constructor <;> rfl

/-- C3 (amended): a source string starting with a character outside the
scanner's recognized set makes `scanTokens` abort immediately with the
thrown `SyntaxError`, whatever the remaining characters are — the
subsequent input is never scanned; recovery happens only in the host-level
caller that catches and reports the error. -/
theorem scanner_unrecognized_char_aborts (c : Char) (rest : List Char)
    (h : recognizedStart c = false) :
    scanTokens (c :: rest) =
      .error ⟨"Unexpected character: '" ++ c.toString ++ "'", 1⟩ := by
  simp only [recognizedStart, Bool.or_eq_false_iff] at h
  obtain ⟨⟨⟨⟨⟨⟨⟨⟨⟨⟨⟨⟨⟨⟨⟨⟨⟨⟨⟨⟨⟨h1, h2⟩, h3⟩, h4⟩, h5⟩, h6⟩, h7⟩, h8⟩, h9⟩, h10⟩, h11⟩, h12⟩, h13⟩, h14⟩, h15⟩, h16⟩, h17⟩, h18⟩, h19⟩, h20⟩, h21⟩, h22⟩ := h
  simp [scanTokens, scanTokensGo, atEnd, scanToken, advance, chAt,
    h1, h2, h3, h4, h5, h6, h7, h8, h9, h10, h11, h12, h13, h14, h15,
    h16, h17, h18, h19, h20, h21, h22]

/-- C3 witness: `'@'` is unrecognized and scanning `"@+"` aborts with the
syntax error, never producing the `+` token. -/
theorem scanner_unrecognized_char_aborts_witness :
    recognizedStart '@' = false ∧
    scanTokens ('@' :: '+' :: []) = .error ⟨"Unexpected character: '@'", 1⟩ :=
  ⟨by decide, scanner_unrecognized_char_aborts '@' ['+'] (by decide)⟩

/-- C7: `executeBlock` restores the previously active environment on every
exit path — normal completion, a runtime error, the non-local return
signal, or fuel exhaustion — and `visitBlockStmt` runs the block in a
freshly allocated environment whose enclosing link is the currently active
one; consequently the interpreter's active-environment field is unchanged
after any block. -/
theorem block_restores_environment :
    (∀ fuel stmts envRef s, ((executeBlock fuel stmts envRef s).2).env = s.env) ∧
    (∀ fuel stmts s,
      execStmt (fuel + 1) (.blockStmt stmts) s =
        executeBlock fuel stmts s.frames.length
          { s with frames := s.frames ++ [⟨[], some s.env⟩] }) ∧
    (∀ fuel stmts s, ((execStmt (fuel + 1) (.blockStmt stmts) s).2).env = s.env) := by
  refine ⟨?_, ?_, ?_⟩
  · intro fuel stmts envRef s
    cases fuel <;> simp [executeBlock]
  · intro fuel stmts s
    rfl
  · intro fuel stmts s
    cases fuel <;> simp [execStmt, executeBlock]

/-- C9: the parser's for-statement output (the `Stmt` family has no `For`
variant) is exactly the spec's desugared form — increment as a trailing
statement in a block around the body, missing condition defaulting to the
literal `true`, initializer wrapped around the while-loop — and executing
the desugared `for (var i = 0; i < 3; i = i + 1) print i;` prints `0,1,2`,
restores the active environment, and leaves `i` undefined in the enclosing
(global) scope. -/
theorem for_desugaring_refinement :
    (∀ ini c inc b, desugarFor ini c inc b = desugarForSpec ini c inc b) ∧
    (execStmts 100 [forExample] initLoxState).2.output = ["0", "1", "2"] ∧
    (execStmts 100 [forExample] initLoxState).2.env = 0 ∧
    envGet 10 (execStmts 100 [forExample] initLoxState).2 0 "i" =
      .error (.rtErr "Undefined variable 'i'") := by
  refine ⟨?_, rfl, rfl, rfl⟩
  intro ini c inc b
  cases ini <;> cases c <;> cases inc <;> rfl

/-- C4: a logical expression first evaluates its left operand; when that
alone decides the outcome (truthy for `or`, falsy for `and`) the result is
the left operand's value itself with the state exactly as it was after the
left evaluation — the right operand is not evaluated; otherwise the result
is the right operand's evaluation.  No boolean coercion is applied either
way. -/
theorem logical_short_circuit (fuel : Nat) (l r : Expr) (op : Token)
    (s s₁ : LoxState) (v : Value)
    (hl : evalExpr fuel l s = (.ok v, s₁)) :
    evalExpr (fuel + 1) (.logicalExpr l op r) s =
      if (if op.type == TokenType.tOr then isTruthy v else !(isTruthy v))
      then (.ok v, s₁)
      else evalExpr fuel r s₁ := by
  simp only [evalExpr, hl]
  cases hOr : op.type == TokenType.tOr <;> cases hT : isTruthy v <;>
    simp [hOr, hT]

/-- C4 witness: `false and (x = 2)` yields `false` itself and leaves the
state untouched — the assignment on the right (which would raise an
undefined-variable error if evaluated) never runs. -/
theorem logical_short_circuit_witness :
    evalExpr 5 (.logicalExpr (.literalExpr (.bool false)) (opTok .tAnd "and")
        (.assignExpr (idTok "x") (.literalExpr (.num 2)) none))
      emptyGlobalsState = (.ok (.bool false), emptyGlobalsState) := by
  have h := logical_short_circuit 4 (.literalExpr (.bool false))
    (.assignExpr (idTok "x") (.literalExpr (.num 2)) none) (opTok .tAnd "and")
    emptyGlobalsState emptyGlobalsState (.bool false) rfl
  exact h.trans (by rfl)

/-- C5: a call expression evaluates the callee and then all arguments; with
those values in hand, a non-callable callee raises the runtime error
`Can only call functions and classes`, and a callable callee whose declared
arity differs from the argument count raises `Expected N arguments but got
M` — in both cases with the state exactly as it was after argument
evaluation, i.e. before any part of the call body has run; with a callable
callee and matching count the call proceeds to `LoxCallable.call`. -/
theorem call_arity_and_callable_checks (fuel : Nat) (callee : Expr)
    (paren : Token) (args : List Expr) (s s₁ s₂ : LoxState) (cv : Value)
    (avs : List Value)
    (hc : evalExpr fuel callee s = (.ok cv, s₁))
    (ha : evalArgs fuel args s₁ = (.ok avs, s₂)) :
    evalExpr (fuel + 1) (.callExpr callee paren args) s =
      if !(isCallable cv) then
        (.error (.rtErr "Can only call functions and classes"), s₂)
      else if avs.length != arityOf cv then
        (.error (.rtErr ("Expected " ++ toString (arityOf cv) ++
          " arguments but got " ++ toString avs.length)), s₂)
      else callValue fuel cv avs s₂ := by
  simp only [evalExpr, hc, ha]

/-- C5 witness: calling a zero-parameter function with one argument raises
the arity error naming expected and actual counts, before its (empty) body
could run; and calling the non-callable number `3` raises the
non-callable error. -/
theorem call_arity_and_callable_checks_witness :
    evalExpr 5 (.callExpr (.variableExpr (idTok "f") none) (opTok .rightParen ")")
        [.literalExpr (.num 1)]) arityWitnessState =
      (.error (.rtErr "Expected 0 arguments but got 1"), arityWitnessState) ∧
    evalExpr 5 (.callExpr (.literalExpr (.num 3)) (opTok .rightParen ")") [])
      arityWitnessState =
      (.error (.rtErr "Can only call functions and classes"), arityWitnessState) := by
  constructor
  · have h := call_arity_and_callable_checks 4 (.variableExpr (idTok "f") none)
      (opTok .rightParen ")") [.literalExpr (.num 1)] arityWitnessState
      arityWitnessState arityWitnessState (.fn ⟨idTok "f", [], [], 0, false⟩)
      [.num 1] rfl rfl
    exact h.trans (by rfl)
  · have h := call_arity_and_callable_checks 4 (.literalExpr (.num 3))
      (opTok .rightParen ")") [] arityWitnessState arityWitnessState
      arityWitnessState (.num 3) [] rfl rfl
    exact h.trans (by rfl)

/-- C6: calling a class value (i) allocates a fresh instance whose field
record is EMPTY, (ii) when the class chain defines no `init` immediately
returns that instance, (iii) when it does, binds `init` to the new
instance, calls it with the constructor arguments and returns the instance
whatever value the init call produced, (iv) an initializer function call
yields its closure's `this` binding both on normal completion and when an
explicit `return` signal (whose carried value is discarded) unwinds the
body, and (v) the `this` binding a bound method's closure holds is exactly
the receiver instance — so a bound `init` call yields the bound instance. -/
theorem class_instantiation_returns_instance :
    (∀ s k, (pushInst s k).insts[s.insts.length]? = some ⟨k, []⟩) ∧
    (∀ fuel k args s, ClassVal.findMethod k "init" = none →
      classCall (fuel + 1) k args s = (.ok (.inst s.insts.length), pushInst s k)) ∧
    (∀ fuel k ini args s w s₂, ClassVal.findMethod k "init" = some ini →
      loxFunctionCall fuel ((bindMethod ini s.insts.length (pushInst s k)).1) args
        ((bindMethod ini s.insts.length (pushInst s k)).2) = (.ok w, s₂) →
      classCall (fuel + 1) k args s = (.ok (.inst s.insts.length), s₂)) ∧
    (∀ fuel f args s s₂, f.isInitializer = true →
      (executeBlock fuel f.body (funcEnvRef f args s) (funcEnvState f args s) =
          (.ok (), s₂) ∨
       ∃ v, executeBlock fuel f.body (funcEnvRef f args s) (funcEnvState f args s) =
          (.error (.ret v), s₂)) →
      loxFunctionCall (fuel + 1) f args s = (.ok (closureGetThis s₂ f.closure), s₂)) ∧
    (∀ f iref s, closureGetThis ((bindMethod f iref s).2)
        ((bindMethod f iref s).1).closure = Value.inst iref) := by
  refine ⟨?_, ?_, ?_, ?_, ?_⟩
  · intro s k
    simp [pushInst, getAppendLength]
  · intro fuel k args s h
    simp [classCall, h]
  · intro fuel k ini args s w s₂ h hcall
    simp [classCall, h, hcall]
  · intro fuel f args s s₂ hinit hout
    rcases hout with h | ⟨v, h⟩ <;> simp [loxFunctionCall, h, hinit]
  · intro f iref s
    simp [bindMethod, closureGetThis, getAppendLength, Frame.read, alGet]

/-- C6 witness: constructing `initReturnsClass`, whose `init` body is
`return 42;`, still yields the new instance (reference 0) — the explicit
return value 42 is discarded. -/
theorem class_instantiation_returns_instance_witness :
    (classCall 10 initReturnsClass [] initLoxState).1 = .ok (.inst 0) := by
  have h := class_instantiation_returns_instance.2.2.1 9 initReturnsClass
    ⟨idTok "init", [],
      [.returnStmt (opTok .tReturn "return") (some (.literalExpr (.num 42)))],
      0, true⟩
    [] initLoxState _ _ rfl rfl
  rw [show (10 : Nat) = 9 + 1 from rfl, h]
  rfl

/-- C8: `Environment.assign` walks the chain without ever creating a
binding: when the name is bound nowhere along the chain the result is the
runtime error `Undefined variable '<name>'` and the state is returned
UNCHANGED; consequently an assignment expression whose node carries no
resolver distance and whose target is absent from the global chain
evaluates to that error with no new binding created. -/
theorem assign_undefined_no_implicit_global :
    (∀ fuel s ref name v, chainHas s fuel ref name = false →
      envAssign fuel s ref name v =
        (.error (.rtErr ("Undefined variable '" ++ name ++ "'")), s)) ∧
    (∀ fuel s name rhs v s₁, evalExpr fuel rhs s = (.ok v, s₁) →
      chainHas s₁ fuel 0 name.lexeme = false →
      evalExpr (fuel + 1) (.assignExpr name rhs none) s =
        (.error (.rtErr ("Undefined variable '" ++ name.lexeme ++ "'")), s₁)) := by
  have main : ∀ fuel s ref name v, chainHas s fuel ref name = false →
      envAssign fuel s ref name v =
        (.error (.rtErr ("Undefined variable '" ++ name ++ "'")), s) := by
    intro fuel
    induction fuel with
    | zero =>
        intro s ref name v h
        simp [chainHas] at h
    | succ n ih =>
        intro s ref name v h
        simp only [chainHas] at h
        simp only [envAssign]
        cases hf : s.frames[ref]? with
        | none => rfl
        | some f =>
            rw [hf] at h
            simp only [Bool.or_eq_false_iff] at h
            obtain ⟨habs, henc⟩ := h
            cases he : f.enclosing with
            | none => simp [habs, he]
            | some p =>
                rw [he] at henc
                simp [habs, he, ih s p name v henc]
  refine ⟨main, ?_⟩
  intro fuel s name rhs v s₁ hrhs hchain
  simp only [evalExpr, hrhs]
  rw [main fuel s₁ 0 name.lexeme v hchain]

/-- C8 witness: with empty globals, `y = 1` (unresolved target) raises
`Undefined variable 'y'` and leaves the state — in particular the global
frame — exactly as it was. -/
theorem assign_undefined_no_implicit_global_witness :
    evalExpr 3 (.assignExpr (idTok "y") (.literalExpr (.num 1)) none)
      emptyGlobalsState =
      (.error (.rtErr "Undefined variable 'y'"), emptyGlobalsState) := by
  have h := assign_undefined_no_implicit_global.2 2 emptyGlobalsState
    (idTok "y") (.literalExpr (.num 1)) (.num 1) emptyGlobalsState rfl (by decide)
  exact h

/-- C10: `LoxInstance.get` consults the instance's own field record first:
when a field of the requested name exists its value is returned unchanged
even if the class chain also defines a method of that name; only when no
such field exists is `findMethod` consulted (returning the method bound to
the instance via a fresh `this` environment), and a miss on both is the
`Undefined property` runtime error. -/
theorem fields_shadow_methods (s : LoxState) (iref : Nat) (i : Inst)
    (name : String) (hi : s.insts[iref]? = some i) :
    (∀ v, alGet i.fields name = some v → instanceGet s iref name = (.ok v, s)) ∧
    (alGet i.fields name = none →
      instanceGet s iref name =
        match ClassVal.findMethod i.klass name with
        | some m => (.ok (.fn ((bindMethod m iref s).1)), (bindMethod m iref s).2)
        | none => (.error (.rtErr ("Undefined property " ++ name)), s)) := by
  constructor
  · intro v hv
    simp [instanceGet, hi, hv]
  · intro hv
    simp [instanceGet, hi, hv]

/-- C10 witness: `shadowClass` defines a method `m`, yet on an instance
whose FIELD `m` holds `7` the property access returns `7` — the field
shadows the method. -/
theorem fields_shadow_methods_witness :
    ClassVal.findMethod shadowClass "m" = some shadowedMethod ∧
    instanceGet shadowState 0 "m" = (.ok (.num 7), shadowState) :=
  ⟨rfl,
   (fields_shadow_methods shadowState 0 ⟨shadowClass, [("m", Value.num 7)]⟩
     "m" rfl).1 (.num 7) rfl⟩
